import Mathlib

/-!
Verification of the curator durable metadata state machine
(`internal/curator/durable/fsm.go`) against its specification.

The apply engine and the command handlers are translated from `fsm.go`.
The state/transaction layer (`Txn` methods such as `GetBlob`, `PutBlob`,
`GetPartitions`, `DeleteBlob`, ...) is not part of the sampled sources;
those operations are modelled from the specification (§4.3, §4.6) and
from the behaviour pinned down by `state/state_test.go`.  Go machine
integers are modelled as `Nat`, with an explicit `% 2^64` where the Go
code can overflow (`uint64` arithmetic in `AllocateRSChunkIDs`).
A handler that can panic in Go (out-of-range slice index) or a fatal
`log.Fatalf` is modelled as returning `none`.
-/

namespace Blb

/-- Error kinds of the `core` package surfaced by handlers (spec §7;
the `core` package is not among the sampled sources). -/
inductive CoreErr where
  | noError
  | errAlreadyExists
  | errNoSuchBlob
  | errNoSuchTract
  | errInvalidArgument
  | errExtendConflict
  | errConflictingState
  | errGenBlobID
  | errReadOnlyMode
deriving DecidableEq, Repr

/-- BlobID = (PartitionID, BlobKey) (spec §3). -/
structure BlobID where
  partition : Nat
  key : Nat
deriving DecidableEq, Repr

/-- TractID = (BlobID, TractKey), 0-based positional index (spec §3). -/
structure TractID where
  blob : BlobID
  index : Nat
deriving DecidableEq, Repr

/-- Tract record: host vector and version (`pb.Tract`). -/
structure Tract where
  hosts : List Nat
  version : Nat
deriving DecidableEq, Repr

/-- Blob record (`pb.Blob`): replication factor, placement hint, times,
optional expiry, optional soft-delete timestamp, opaque metadata,
storage class (0 = replicated default), ordered tracts. -/
structure Blob where
  repl : Nat
  hint : Nat
  mtime : Int
  atime : Int
  expires : Option Int
  deleted : Option Int
  metadata : Nat
  storage : Nat
  tracts : List Tract
deriving DecidableEq, Repr

/-- Partition record (`pb.Partition`): `{id, next_blob_key, next_rs_chunk_key}`.
Unset proto fields read as 0 via the `GetX` accessors. -/
structure Partition where
  id : Nat
  nextBlobKey : Nat
  nextRsChunkKey : Nat
deriving DecidableEq, Repr

/-- An encoded tract inside an RS chunk data piece (spec §3). -/
structure EncodedTract where
  id : TractID
  offset : Nat
  length : Nat
deriving DecidableEq, Repr

/-- RSChunkID = (RS-tagged PartitionID, 64-bit chunk key) (spec §3). -/
structure RSChunkID where
  partition : Nat
  id : Nat
deriving DecidableEq, Repr

/-- RS chunk record: a host per piece plus the packed tracts of each data piece. -/
structure RSChunk where
  hosts : List Nat
  storage : Nat
  data : List (List EncodedTract)
deriving DecidableEq, Repr

/-- Modelled from the spec: `core.MaxBlobKey`, the reserved maximum of the
32-bit blob key; a partition whose `next_blob_key` reached it is full (§3). -/
def maxBlobKey : Nat := 2 ^ 32 - 1

/-- Modelled from the spec: `core.MaxRSChunkKey`, the reserved maximum of the
64-bit RS chunk key (§3). -/
def maxRSChunkKey : Nat := 2 ^ 64 - 1

/-- Modulus of Go `uint64` arithmetic. -/
def u64 : Nat := 2 ^ 64

/-- Modelled from the spec: `core.RSPartition` is the 2-bit partition type tag
distinguishing RS partitions (§3); the tests use partition ids of the form
`0x80000xxx`, i.e. the tag value is 2.  `rsTagged id` is
`uint32(core.RSPartition<<30) | id` from `AllocateRSChunkIDsCommand.apply`. -/
def rsTagged (id : Nat) : Nat := Nat.lor (2 <<< 30) id

/-- The store buckets (`meta`, `partition`, `blob`, `rschunk`) of one curator,
plus the applied index, which is written on every write-transaction commit
(spec §4.1, §4.3).  Modelled from the spec: the state layer is not in the
sampled sources. -/
structure DB where
  curatorID : Nat
  readOnly : Bool
  index : Nat
  partitions : List Partition
  blobs : List (BlobID × Blob)
  rschunks : List (RSChunkID × RSChunk)
  tsidCache : Option (List Nat)
deriving DecidableEq, Repr

/-- Replace the value under a key in an association list, or append it. -/
def putAssoc {κ ν : Type} [BEq κ] : List (κ × ν) → κ → ν → List (κ × ν)
  | [], k, v => [(k, v)]
  | e :: l, k, v => if e.1 == k then (k, v) :: l else e :: putAssoc l k v

/-- Modelled from the spec: `Txn.GetBlobAll` returns the blob record even if
soft-deleted (§4.3, `state_test.go`). -/
def getBlobAll (db : DB) (id : BlobID) : Option Blob :=
  (db.blobs.find? (fun e => e.1 == id)).map (fun e => e.2)

/-- Modelled from the spec: `Txn.GetBlob` returns nil if the blob is missing
or soft-deleted (§4.3; `state_test.go` TestStateBasics lines 77-88). -/
def getBlob (db : DB) (id : BlobID) : Option Blob :=
  match getBlobAll db id with
  | none => none
  | some b => if b.deleted.isSome then none else some b

/-- Modelled from the spec: `Txn.PutBlob` writes the blob record under its id. -/
def putBlob (db : DB) (id : BlobID) (b : Blob) : DB :=
  { db with blobs := putAssoc db.blobs id b }

/-- Modelled from the spec: `Txn.GetPartition` point-gets a partition record. -/
def getPartition (db : DB) (id : Nat) : Option Partition :=
  db.partitions.find? (fun p => p.id == id)

/-- Replace the partition with the same id, or append it. -/
def putPartitionList : List Partition → Partition → List Partition
  | [], p => [p]
  | q :: l, p => if q.id == p.id then p :: l else q :: putPartitionList l p

/-- Modelled from the spec: `Txn.PutPartition` writes a partition record
keyed by its id. -/
def putPartition (db : DB) (p : Partition) : DB :=
  { db with partitions := putPartitionList db.partitions p }

/-- Ordering of partitions by id, the key order of the `partition` bucket. -/
def partLE (a b : Partition) : Prop := a.id ≤ b.id

instance : DecidableRel partLE := fun a b => inferInstanceAs (Decidable (a.id ≤ b.id))

instance : IsTotal Partition partLE := ⟨fun a b => Nat.le_total a.id b.id⟩

instance : IsTrans Partition partLE := ⟨fun _ _ _ hab hbc => Nat.le_trans hab hbc⟩

/-- Modelled from the spec: `Txn.GetPartitions` returns all partitions ordered
by id (§4.3), the store's native key order. -/
def getPartitions (db : DB) : List Partition :=
  List.insertionSort partLE db.partitions

/-- Total order on blob-bucket keys: partition first, then blob key (§4.2). -/
def blobKeyNat (id : BlobID) : Nat := id.partition * 2 ^ 32 + id.key

/-- Deterministic fold over one tract record, used by the checksum. -/
def encTract (t : Tract) : Nat :=
  t.version + 1000003 * t.hosts.foldl (fun a h => a * 31 + h + 1) 7

/-- Deterministic fold over one blob record, used by the checksum. -/
def encBlob (b : Blob) : Nat :=
  b.repl + 31 * b.tracts.foldl (fun a t => a * 131 + encTract t) 11 +
    (if b.deleted.isSome then 1 else 0) + 7 * b.metadata + 13 * b.storage

/-- Modelled from the spec: `ReadOnlyTxn.Checksum(start, n)` computes a
deterministic fold over a contiguous slice of blob-bucket records starting at
`start`, returning the checksum and the next start key (§4.5 step 3). -/
def checksumOf (db : DB) (start n : Nat) : Nat × Nat :=
  let sorted := List.insertionSort (fun a b => blobKeyNat a.1 ≤ blobKeyNat b.1) db.blobs
  let slice := (sorted.filter (fun e => start ≤ blobKeyNat e.1)).take n
  let ck := slice.foldl (fun a e => a * 1000033 + blobKeyNat e.1 + encBlob e.2) 5381
  let next := match slice.getLast? with
    | none => 0
    | some e => blobKeyNat e.1 + 1
  (ck, next)

/-! Commands (the tagged command set flowing through the consensus log). -/

/-- `ChecksumCommand{Start, N}` (spec §4.5 step 3). -/
structure ChecksumCommand where
  start : Nat
  n : Nat
deriving DecidableEq, Repr

/-- `VerifyChecksumCommand{Index, Checksum}` (spec §4.5 step 3). -/
structure VerifyChecksumCommand where
  index : Nat
  checksum : Nat
deriving DecidableEq, Repr

/-- `CreateBlobCommand{Repl, Hint, InitialTime, Expires}`. -/
structure CreateBlobCommand where
  repl : Nat
  hint : Nat
  initialTime : Int
  expires : Int
deriving DecidableEq, Repr

/-- `ExtendBlobCommand{ID, FirstTractKey, Hosts}`. -/
structure ExtendBlobCommand where
  id : BlobID
  firstTractKey : Nat
  hosts : List (List Nat)
deriving DecidableEq, Repr

/-- `ChangeTractCommand{ID, NewVersion, NewHosts}`. -/
structure ChangeTractCommand where
  id : TractID
  newVersion : Nat
  newHosts : List Nat
deriving DecidableEq, Repr

/-- One entry of a `BatchUpdateTimes` (`state.UpdateTime`). -/
structure UpdateTime where
  blob : BlobID
  mtime : Int
  atime : Int
deriving DecidableEq, Repr

/-- The tagged sum of commands dispatched by `StateHandler.Apply` (fsm.go 39-105). -/
inductive Cmd where
  | setRegistration (id : Nat)
  | addPartition (id : Nat)
  | syncPartitions (ids : List Nat)
  | createBlob (c : CreateBlobCommand)
  | deleteBlob (id : BlobID) (whenT : Int)
  | finishDelete (blobs : List BlobID)
  | undeleteBlob (id : BlobID)
  | setMetadata (id : BlobID) (md : Nat)
  | extendBlob (c : ExtendBlobCommand)
  | changeTract (c : ChangeTractCommand)
  | updateTimes (updates : List UpdateTime)
  | allocateRSChunkIDs (n : Nat)
  | commitRSChunk (id : RSChunkID) (storage : Nat) (hosts : List Nat)
      (data : List (List EncodedTract))
  | updateRSHosts (id : RSChunkID) (hosts : List Nat)
  | updateStorageClass (id : BlobID) (storage : Nat)
  | createTSIDCache
  | setReadOnlyMode (readOnly : Bool)
  | checksum (c : ChecksumCommand)
  | verifyChecksum (c : VerifyChecksumCommand)
deriving DecidableEq, Repr

/-! Result types.  Go zero-initializes omitted struct fields, hence the
defaults. -/

/-- `ChecksumResult{Next, Checksum, Index}`. -/
structure ChecksumResult where
  next : Nat
  checksum : Nat
  index : Nat
deriving DecidableEq, Repr

/-- `SetRegistrationResult{ID}`. -/
structure SetRegistrationResult where
  id : Nat
deriving DecidableEq, Repr

/-- `AddPartitionResult{Err}`. -/
structure AddPartitionResult where
  err : CoreErr := CoreErr.noError
deriving DecidableEq, Repr

/-- `SyncPartitionsResult{Err}`. -/
structure SyncPartitionsResult where
  err : CoreErr := CoreErr.noError
deriving DecidableEq, Repr

/-- `CreateBlobResult{ID, Err}`. -/
structure CreateBlobResult where
  id : BlobID := { partition := 0, key := 0 }
  err : CoreErr := CoreErr.noError
deriving DecidableEq, Repr

/-- `ExtendBlobResult{Err, NewSize}`. -/
structure ExtendBlobResult where
  err : CoreErr := CoreErr.noError
  newSize : Nat := 0
deriving DecidableEq, Repr

/-- `core.TractInfo{Tract, Version, TSIDs}` as filled by `ChangeTractCommand.apply`. -/
structure TractInfo where
  tract : TractID := { blob := { partition := 0, key := 0 }, index := 0 }
  version : Nat := 0
  tsids : List Nat := []
deriving DecidableEq, Repr

/-- `ChangeTractResult{Err, Info}`. -/
structure ChangeTractResult where
  err : CoreErr := CoreErr.noError
  info : TractInfo := {}
deriving DecidableEq, Repr

/-- `AllocateRSChunkIDsResult{Err, ID}`. -/
structure AllocateRSChunkIDsResult where
  err : CoreErr := CoreErr.noError
  id : RSChunkID := { partition := 0, id := 0 }
deriving DecidableEq, Repr

/-- The untyped interface value returned by `Apply`, as a tagged sum.
`retNil` is Go `nil`; `err` is a bare `core.Error`. -/
inductive ApplyResult where
  | retNil
  | err (e : CoreErr)
  | setRegistration (r : SetRegistrationResult)
  | addPartition (r : AddPartitionResult)
  | syncPartitions (r : SyncPartitionsResult)
  | createBlob (r : CreateBlobResult)
  | extendBlob (r : ExtendBlobResult)
  | changeTract (r : ChangeTractResult)
  | allocate (r : AllocateRSChunkIDsResult)
  | checksumRes (r : ChecksumResult)
deriving DecidableEq, Repr

/-! Command handlers, translated from fsm.go 163-362. -/

/-- `addPartition` (fsm.go 132-142): refuse a duplicate id with
`AlreadyExists`, else insert with `NextBlobKey = 1` (`NextRsChunkKey` unset,
i.e. 0). -/
def addPartitionFn (id : Nat) (db : DB) : CoreErr × DB :=
  match getPartition db id with
  | some _ => (CoreErr.errAlreadyExists, db)
  | none =>
      (CoreErr.noError, putPartition db { id := id, nextBlobKey := 1, nextRsChunkKey := 0 })

/-- `SetRegistrationCommand.apply` (fsm.go 166-171).  Modelled from the spec:
`CuratorID.IsValid` means nonzero (a set-once identifier, §3). -/
def setRegistration_apply (id : Nat) (db : DB) : SetRegistrationResult × DB :=
  let db' := if db.curatorID ≠ 0 then db else { db with curatorID := id }
  ({ id := db'.curatorID }, db')

/-- `SyncPartitionsCommand.apply` (fsm.go 179-185): add each missing
partition, ignoring duplicate errors. -/
def syncPartitions_apply (ids : List Nat) (db : DB) : SyncPartitionsResult × DB :=
  ({ err := CoreErr.noError }, ids.foldl (fun d i => (addPartitionFn i d).2) db)

/-- `CreateBlobCommand.apply` (fsm.go 188-222): first non-full partition in id
order gets the blob; its `NextBlobKey` is the new key and is incremented
(the guard `NextBlobKey != MaxBlobKey` rules out `uint32` wrap-around).
The new blob carries `Mtime = Atime = InitialTime`, the hint, and the expiry
only when nonzero; storage class is left at the replicated default. -/
def createBlob_apply (c : CreateBlobCommand) (db : DB) : CreateBlobResult × DB :=
  match (getPartitions db).find? (fun p => p.nextBlobKey != maxBlobKey) with
  | none => ({ err := CoreErr.errGenBlobID }, db)
  | some p =>
      let key := p.nextBlobKey
      let db1 := putPartition db { p with nextBlobKey := p.nextBlobKey + 1 }
      let id : BlobID := { partition := p.id, key := key }
      let blob : Blob :=
        { repl := c.repl, hint := c.hint, mtime := c.initialTime, atime := c.initialTime,
          expires := if c.expires ≠ 0 then some c.expires else none,
          deleted := none, metadata := 0, storage := 0, tracts := [] }
      ({ id := id, err := CoreErr.noError }, putBlob db1 id blob)

/-- Modelled from the spec: `Txn.DeleteBlob(id, when)` stamps the soft-delete
timestamp; errors if the blob is missing or already soft-deleted (§4.6). -/
def txnDeleteBlob (db : DB) (id : BlobID) (whenT : Int) : CoreErr × DB :=
  match getBlobAll db id with
  | none => (CoreErr.errNoSuchBlob, db)
  | some b =>
      if b.deleted.isSome then (CoreErr.errNoSuchBlob, db)
      else (CoreErr.noError, putBlob db id { b with deleted := some whenT })

/-- Modelled from the spec: `Txn.UndeleteBlob(id)` clears the soft-delete if
present, no-ops if not deleted, errors if the blob is absent (§4.6). -/
def txnUndeleteBlob (db : DB) (id : BlobID) : CoreErr × DB :=
  match getBlobAll db id with
  | none => (CoreErr.errNoSuchBlob, db)
  | some b => (CoreErr.noError, putBlob db id { b with deleted := none })

/-- Modelled from the spec: `Txn.FinishDeleteBlobs(ids)` removes the listed
blob records and purges their tract references from every RS chunk (§4.3). -/
def txnFinishDeleteBlobs (db : DB) (ids : List BlobID) : CoreErr × DB :=
  (CoreErr.noError,
   { db with
     blobs := db.blobs.filter (fun e => !(ids.contains e.1)),
     rschunks := db.rschunks.map (fun ch =>
       (ch.1, { ch.2 with
                data := ch.2.data.map (fun ts =>
                  ts.filter (fun t => !(ids.contains t.id.blob))) })) })

/-- Modelled from the spec: `Txn.SetBlobMetadata(id, md)` replaces the
metadata field (§4.6). -/
def txnSetBlobMetadata (db : DB) (id : BlobID) (md : Nat) : CoreErr × DB :=
  match getBlob db id with
  | none => (CoreErr.errNoSuchBlob, db)
  | some b => (CoreErr.noError, putBlob db id { b with metadata := md })

/-- `ExtendBlobCommand.apply` (fsm.go 246-278): requires the blob to exist,
`FirstTractKey` to equal the current tract count, and every host vector's
length to equal the replication factor; then appends one version-1 tract per
host vector and returns the new tract count. -/
def extendBlob_apply (c : ExtendBlobCommand) (db : DB) : ExtendBlobResult × DB :=
  match getBlob db c.id with
  | none => ({ err := CoreErr.errNoSuchBlob }, db)
  | some blob =>
      if c.firstTractKey ≠ blob.tracts.length then
        ({ err := CoreErr.errExtendConflict }, db)
      else if c.hosts.any (fun h => h.length ≠ blob.repl) then
        ({ err := CoreErr.errInvalidArgument }, db)
      else
        let blob' := { blob with
          tracts := blob.tracts ++ c.hosts.map (fun hs => { hosts := hs, version := 1 }) }
        ({ err := CoreErr.noError, newSize := blob'.tracts.length }, putBlob db c.id blob')

/-- `ChangeTractCommand.apply` (fsm.go 282-314).  The existence guard is
`cmd.ID.Index > len(blob.Tracts)`, so for `Index == len(blob.Tracts)` the read
`blob.Tracts[cmd.ID.Index]` is out of range and panics; the panic is modelled
as `none`. -/
def changeTract_apply (c : ChangeTractCommand) (db : DB) :
    Option (ChangeTractResult × DB) :=
  match getBlob db c.id.blob with
  | none => some ({ err := CoreErr.errNoSuchBlob }, db)
  | some blob =>
      if c.id.index > blob.tracts.length then
        some ({ err := CoreErr.errNoSuchTract }, db)
      else
        match blob.tracts.get? c.id.index with
        | none => none
        | some tract =>
            if tract.hosts.length ≠ c.newHosts.length then
              some ({ err := CoreErr.errInvalidArgument }, db)
            else if tract.version + 1 ≠ c.newVersion then
              some ({ err := CoreErr.errConflictingState }, db)
            else
              let tract' := { tract with version := tract.version + 1, hosts := c.newHosts }
              let blob' := { blob with tracts := blob.tracts.set c.id.index tract' }
              some ({ err := CoreErr.noError,
                      info := { tract := c.id, version := tract'.version,
                                tsids := tract'.hosts } },
                    putBlob db c.id.blob blob')

/-- Modelled from the spec: one step of `Txn.BatchUpdateTimes` — advance
`Mtime` when the update's mtime is larger, likewise `Atime`; skip missing
blobs (§4.6). -/
def updateOneTime (db : DB) (u : UpdateTime) : DB :=
  match getBlob db u.blob with
  | none => db
  | some b =>
      let b1 := if u.mtime > b.mtime then { b with mtime := u.mtime } else b
      let b2 := if u.atime > b1.atime then { b1 with atime := u.atime } else b1
      putBlob db u.blob b2

/-- Modelled from the spec: `Txn.BatchUpdateTimes(updates)` (§4.3, §4.6). -/
def txnBatchUpdateTimes (db : DB) (us : List UpdateTime) : DB :=
  us.foldl updateOneTime db

/-- `AllocateRSChunkIDsCommand.apply` (fsm.go 323-346): first partition in id
order whose counter fits `N` more keys; the range starts at the old counter
(or 1 when it was 0) and the counter advances by `N` from that start.  The
additions are Go `uint64` arithmetic, hence the `% u64`. -/
def allocateRSChunkIDs_apply (n : Nat) (db : DB) : AllocateRSChunkIDsResult × DB :=
  match (getPartitions db).find?
      (fun p => decide ((p.nextRsChunkKey + n) % u64 ≤ maxRSChunkKey)) with
  | none => ({ err := CoreErr.errGenBlobID }, db)
  | some p =>
      let key := if p.nextRsChunkKey = 0 then 1 else p.nextRsChunkKey
      let db1 := putPartition db { p with nextRsChunkKey := (key + n) % u64 }
      ({ err := CoreErr.noError, id := { partition := rsTagged p.id, id := key } }, db1)

/-- Modelled from the spec: `Txn.PutRSChunk` writes the chunk record (§4.3). -/
def txnPutRSChunk (db : DB) (id : RSChunkID) (storage : Nat) (hosts : List Nat)
    (data : List (List EncodedTract)) : CoreErr × DB :=
  (CoreErr.noError,
   { db with rschunks :=
       putAssoc db.rschunks id { hosts := hosts, storage := storage, data := data } })

/-- Modelled from the spec: `Txn.UpdateRSHosts` replaces the chunk's hosts and
errors if the chunk is missing (§4.6). -/
def txnUpdateRSHosts (db : DB) (id : RSChunkID) (hosts : List Nat) : CoreErr × DB :=
  match (db.rschunks.find? (fun e => e.1 == id)).map (fun e => e.2) with
  | none => (CoreErr.errNoSuchBlob, db)
  | some ch =>
      (CoreErr.noError, { db with rschunks := putAssoc db.rschunks id { ch with hosts := hosts } })

/-- Modelled from the spec: `Txn.UpdateStorageClass` updates the blob's
storage class (§4.6). -/
def txnUpdateStorageClass (db : DB) (id : BlobID) (storage : Nat) : CoreErr × DB :=
  match getBlob db id with
  | none => (CoreErr.errNoSuchBlob, db)
  | some b => (CoreErr.noError, putBlob db id { b with storage := storage })

/-- All TractserverIDs referenced by any tract or RS chunk, sorted and
deduplicated. -/
def allTSIDs (db : DB) : List Nat :=
  (((db.blobs.map (fun e => (e.2.tracts.map Tract.hosts).flatten)).flatten ++
    (db.rschunks.map (fun e => e.2.hosts)).flatten).insertionSort (· ≤ ·)).dedup

/-- Modelled from the spec: `Txn.CreateTSIDCache` scans blobs and RS chunks
and writes the sorted union of referenced TractserverIDs (§4.3). -/
def txnCreateTSIDCache (db : DB) : CoreErr × DB :=
  (CoreErr.noError, { db with tsidCache := some (allTSIDs db) })

/-- The dispatch switch of `Apply` (fsm.go 72-108).  A command with no case
there reaches `log.Fatalf` (unknown command), modelled as `none`; a handler
panic also yields `none`. -/
def dispatch (cmd : Cmd) (db : DB) : Option (ApplyResult × DB) :=
  match cmd with
  | .setRegistration id =>
      let (r, db') := setRegistration_apply id db
      some (.setRegistration r, db')
  | .addPartition id =>
      let (e, db') := addPartitionFn id db
      some (.addPartition { err := e }, db')
  | .syncPartitions ids =>
      let (r, db') := syncPartitions_apply ids db
      some (.syncPartitions r, db')
  | .createBlob c =>
      let (r, db') := createBlob_apply c db
      some (.createBlob r, db')
  | .deleteBlob id w =>
      let (e, db') := txnDeleteBlob db id w
      some (.err e, db')
  | .finishDelete ids =>
      let (e, db') := txnFinishDeleteBlobs db ids
      some (.err e, db')
  | .undeleteBlob id =>
      let (e, db') := txnUndeleteBlob db id
      some (.err e, db')
  | .setMetadata id md =>
      let (e, db') := txnSetBlobMetadata db id md
      some (.err e, db')
  | .extendBlob c =>
      let (r, db') := extendBlob_apply c db
      some (.extendBlob r, db')
  | .changeTract c =>
      (changeTract_apply c db).map (fun rd => (.changeTract rd.1, rd.2))
  | .updateTimes us =>
      some (.err CoreErr.noError, txnBatchUpdateTimes db us)
  | .allocateRSChunkIDs n =>
      let (r, db') := allocateRSChunkIDs_apply n db
      some (.allocate r, db')
  | .commitRSChunk id st hs data =>
      let (e, db') := txnPutRSChunk db id st hs data
      some (.err e, db')
  | .updateRSHosts id hs =>
      let (e, db') := txnUpdateRSHosts db id hs
      some (.err e, db')
  | .updateStorageClass id st =>
      let (e, db') := txnUpdateStorageClass db id st
      some (.err e, db')
  | .createTSIDCache =>
      let (e, db') := txnCreateTSIDCache db
      some (.err e, db')
  | .setReadOnlyMode _ => none
  | .checksum _ => none
  | .verifyChecksum _ => none

/-- The full handler state: the store plus the in-memory checksum cache
(`h.checksum`, `h.checksumIndex`). -/
structure StateHandler where
  db : DB
  checksum : Nat
  checksumIndex : Nat
deriving DecidableEq, Repr

/-- A committed consensus entry (`raft.Entry`), with the command already
decoded. -/
structure Entry where
  index : Nat
  cmd : Cmd
deriving DecidableEq, Repr

/-- A write transaction opened at `idx` writes the applied-index key on
commit (spec §4.3). -/
def commit (db : DB) (idx : Nat) : DB := { db with index := idx }

/-- The write path of `Apply` for a mutating command (fsm.go 66-108): the
read-only gate, then the dispatch switch; the deferred write-transaction
commit stamps `idx` as the applied index in every non-halting outcome. -/
def applyMut (h : StateHandler) (idx : Nat) (cmd : Cmd) :
    Option (ApplyResult × StateHandler) :=
  if h.db.readOnly then
    some (.err CoreErr.errReadOnlyMode, { h with db := commit h.db idx })
  else
    match dispatch cmd h.db with
    | none => none
    | some (r, db') => some (r, { h with db := commit db' idx })

/-- `StateHandler.Apply` (fsm.go 20-109): replay check, read-only checksum
commands, `SetReadOnlyMode` handled ahead of the gate, then the write path.
`none` models a process halt (`log.Fatalf` on checksum divergence or unknown
command, or a handler panic). -/
def Apply (h : StateHandler) (ent : Entry) : Option (ApplyResult × StateHandler) :=
  if ent.index ≤ h.db.index then some (.retNil, h)
  else
    match ent.cmd with
    | .checksum c =>
        let ckn := checksumOf h.db c.start c.n
        some (.checksumRes { next := ckn.2, checksum := ckn.1, index := ent.index },
              { h with checksum := ckn.1, checksumIndex := ent.index })
    | .verifyChecksum c =>
        if h.checksumIndex ≠ c.index then some (.retNil, h)
        else if h.checksum ≠ c.checksum then none
        else some (.retNil, h)
    | .setReadOnlyMode b =>
        some (.err CoreErr.noError, { h with db := commit { h.db with readOnly := b } ent.index })
    | cmd => applyMut h ent.index cmd

/-- Whether a command is one of the two checksum commands, which `Apply` runs
against a read-only transaction (fsm.go 38-48). -/
def Cmd.isChecksumKind : Cmd → Bool
  | .checksum _ => true
  | .verifyChecksum _ => true
  | _ => false

/-! Helper lemmas about the store model. -/

theorem find?_putAssoc_self {κ ν : Type} [BEq κ] [LawfulBEq κ]
    (l : List (κ × ν)) (k : κ) (v : ν) :
    (putAssoc l k v).find? (fun e => e.1 == k) = some (k, v) := by
  induction l with
  | nil => simp [putAssoc]
  | cons e l ih =>
    cases h : e.1 == k with
    | true => simp [putAssoc, h, List.find?_cons]
    | false => simp [putAssoc, h, List.find?_cons, ih]

theorem getBlobAll_putBlob (db : DB) (id : BlobID) (b : Blob) :
    getBlobAll (putBlob db id b) id = some b := by
  simp [getBlobAll, putBlob, find?_putAssoc_self]

theorem getBlob_putBlob (db : DB) (id : BlobID) (b : Blob) :
    getBlob (putBlob db id b) id = if b.deleted.isSome then none else some b := by
  simp [getBlob, getBlobAll_putBlob]

theorem find?_putPartitionList (l : List Partition) (p : Partition) :
    (putPartitionList l p).find? (fun q => q.id == p.id) = some p := by
  induction l with
  | nil => simp [putPartitionList]
  | cons q l ih =>
    cases h : q.id == p.id with
    | true => simp [putPartitionList, h, List.find?_cons]
    | false => simp [putPartitionList, h, List.find?_cons, ih]

theorem getPartition_putPartition (db : DB) (p : Partition) :
    getPartition (putPartition db p) p.id = some p := by
  simp [getPartition, putPartition, find?_putPartitionList]

theorem getPartitions_sorted (db : DB) : (getPartitions db).Sorted partLE :=
  List.sorted_insertionSort partLE db.partitions

theorem mem_getPartitions (db : DB) (p : Partition) :
    p ∈ getPartitions db ↔ p ∈ db.partitions := by
  simp [getPartitions]

/-- `find?` on a list sorted by partition id returns a satisfying element of
minimal id. -/
theorem sorted_find?_min {l : List Partition} (hs : l.Sorted partLE)
    {p : Partition → Bool} {q : Partition} (hq : l.find? p = some q) :
    ∀ x ∈ l, p x = true → q.id ≤ x.id := by
  induction l with
  | nil => simp at hq
  | cons a l ih =>
    rcases List.sorted_cons.mp hs with ⟨ha, hs'⟩
    intro x hx hpx
    cases hpa : p a with
    | true =>
      rw [List.find?_cons, hpa] at hq
      cases hq
      rcases List.mem_cons.mp hx with rfl | hx'
      · exact Nat.le_refl _
      · exact ha x hx'
    | false =>
      rw [List.find?_cons, hpa] at hq
      rcases List.mem_cons.mp hx with rfl | hx'
      · rw [hpa] at hpx; cases hpx
      · exact ih hs' hq x hx' hpx

theorem get?_set_self {α : Type} (l : List α) (n : Nat) (a : α) (h : n < l.length) :
    (l.set n a).get? n = some a := by
  rw [List.get?_eq_getElem?, List.getElem?_set_self]
  simp [List.getElem?_eq_getElem, h]

/-- The applied index written by `applyMut` on every non-halting outcome. -/
theorem applyMut_some_index {h : StateHandler} {idx : Nat} {cmd : Cmd}
    {r : ApplyResult} {h' : StateHandler}
    (happ : applyMut h idx cmd = some (r, h')) : h'.db.index = idx := by
  unfold applyMut at happ
  by_cases hro : h.db.readOnly
  · rw [if_pos hro] at happ
    simp only [Option.some.injEq, Prod.mk.injEq] at happ
    rw [← happ.2]
    rfl
  · rw [if_neg hro] at happ
    cases hd : dispatch cmd h.db with
    | none => rw [hd] at happ; cases happ
    | some p =>
      rw [hd] at happ
      simp only [Option.some.injEq, Prod.mk.injEq] at happ
      rw [← happ.2]
      rfl

theorem getBlob_deleted_none {db : DB} {id : BlobID} {b : Blob}
    (h : getBlob db id = some b) : b.deleted = none := by
  unfold getBlob at h
  cases hg : getBlobAll db id with
  | none => simp [hg] at h
  | some b0 =>
    simp only [hg] at h
    by_cases hd : b0.deleted.isSome = true
    · rw [if_pos hd] at h; cases h
    · rw [if_neg hd] at h
      cases h
      exact Option.not_isSome_iff_eq_none.mp hd

/-! Concrete states for witnesses and counterexamples. -/

/-- Blob id (1, 1). -/
def bid11 : BlobID := { partition := 1, key := 1 }

/-- A live blob with replication factor 3 and no tracts yet. -/
def blobNoTracts : Blob :=
  { repl := 3, hint := 0, mtime := 100, atime := 100, expires := none,
    deleted := none, metadata := 0, storage := 0, tracts := [] }

/-- A store with one partition and the single live blob `bid11`. -/
def db0 : DB :=
  { curatorID := 0, readOnly := false, index := 0,
    partitions := [{ id := 1, nextBlobKey := 2, nextRsChunkKey := 0 }],
    blobs := [(bid11, blobNoTracts)], rschunks := [], tsidCache := none }

/-- Like `db0` but the blob carries a soft-delete timestamp. -/
def dbDeleted : DB :=
  { db0 with blobs := [(bid11, { blobNoTracts with deleted := some 200 })] }

/-- Like `db0` but the single partition is full. -/
def dbFull : DB :=
  { db0 with partitions := [{ id := 1, nextBlobKey := maxBlobKey, nextRsChunkKey := 0 }] }

/-- A handler over `db0` with an empty checksum cache. -/
def h0 : StateHandler := { db := db0, checksum := 0, checksumIndex := 0 }

/-- Like `h0` but with read-only mode set. -/
def hRO : StateHandler := { h0 with db := { db0 with readOnly := true } }

/-- An extend of one tract onto the empty blob of `db0`. -/
def extCmd3 : ExtendBlobCommand := { id := bid11, firstTractKey := 0, hosts := [[4, 5, 6]] }

/-- A degenerate extend carrying zero host vectors. -/
def extCmdEmpty : ExtendBlobCommand := { id := bid11, firstTractKey := 0, hosts := [] }

/-! Claim theorems. -/

/-- C1: the claim is right and the code is wrong.  The existence guard of
`ChangeTractCommand.apply` (fsm.go 288) is `cmd.ID.Index > len(blob.Tracts)`
instead of `>=`: for an existing blob with no tract at the command's index
(here index 0 of a blob with 0 tracts) the handler falls through the guard
and indexes `blob.Tracts[0]` out of range — a Go panic, modelled as `none` —
instead of returning `NoSuchTract` and leaving the blob unchanged. -/
theorem changeTract_boundary_panic :
    (getBlob db0 bid11).map (fun b => b.tracts.length) = some 0 ∧
    changeTract_apply
      { id := { blob := bid11, index := 0 }, newVersion := 1, newHosts := [1, 2, 3] }
      db0 = none := by
  constructor
  · rfl
  · rfl

/-- C10: a blob that exists but carries a soft-delete timestamp is invisible
to `Txn.GetBlob`, so `ExtendBlobCommand.apply` (fsm.go 247-250) and
`ChangeTractCommand.apply` (fsm.go 283-285) both answer `NoSuchBlob` and
leave the store unchanged. -/
theorem softDeleted_blob_rejected (db : DB) (id : BlobID) (b : Blob)
    (hb : getBlobAll db id = some b) (hd : b.deleted.isSome = true) :
    (∀ c : ExtendBlobCommand, c.id = id →
      extendBlob_apply c db = ({ err := CoreErr.errNoSuchBlob }, db)) ∧
    (∀ c : ChangeTractCommand, c.id.blob = id →
      changeTract_apply c db = some ({ err := CoreErr.errNoSuchBlob }, db)) := by
  have hg : getBlob db id = none := by
    simp [getBlob, hb, hd]
  constructor
  · intro c hcid
    unfold extendBlob_apply
    rw [hcid, hg]
  · intro c hcid
    unfold changeTract_apply
    rw [hcid, hg]

/-- Closed instance of `softDeleted_blob_rejected` at the soft-deleted blob of
`dbDeleted`. -/
theorem softDeleted_blob_rejected_witness :
    extendBlob_apply extCmd3 dbDeleted = ({ err := CoreErr.errNoSuchBlob }, dbDeleted) ∧
    changeTract_apply
      { id := { blob := bid11, index := 0 }, newVersion := 1, newHosts := [1, 2, 3] }
      dbDeleted = some ({ err := CoreErr.errNoSuchBlob }, dbDeleted) := by
  have h := softDeleted_blob_rejected dbDeleted bid11
    { blobNoTracts with deleted := some 200 } (by decide) (by decide)
  exact ⟨h.1 extCmd3 rfl, h.2 _ rfl⟩

/-- C4: for a `ChangeTract` on an existing blob, an existing tract, and a
matching host-vector length, the handler succeeds exactly when `NewVersion`
is the tract's version plus 1 (fsm.go 297), returning `ConflictingState` with
no state change otherwise; on success the stored tract's version is the old
version plus 1, its hosts are `NewHosts`, and the tract count is unchanged. -/
theorem changeTract_version_rule (c : ChangeTractCommand) (db : DB)
    (blob : Blob) (tract : Tract)
    (hb : getBlob db c.id.blob = some blob)
    (ht : blob.tracts.get? c.id.index = some tract)
    (hh : tract.hosts.length = c.newHosts.length) :
    (c.newVersion = tract.version + 1 →
      changeTract_apply c db =
        some ({ err := CoreErr.noError,
                info := { tract := c.id, version := tract.version + 1, tsids := c.newHosts } },
              putBlob db c.id.blob
                { blob with tracts :=
                    blob.tracts.set c.id.index (Tract.mk c.newHosts (tract.version + 1)) }) ∧
      (blob.tracts.set c.id.index (Tract.mk c.newHosts (tract.version + 1))).get? c.id.index =
        some (Tract.mk c.newHosts (tract.version + 1)) ∧
      (blob.tracts.set c.id.index (Tract.mk c.newHosts (tract.version + 1))).length =
        blob.tracts.length) ∧
    (c.newVersion ≠ tract.version + 1 →
      changeTract_apply c db = some ({ err := CoreErr.errConflictingState }, db)) := by
  have hlt : c.id.index < blob.tracts.length := by
    by_contra hnl
    push_neg at hnl
    rw [List.get?_eq_none.mpr hnl] at ht
    cases ht
  have hng : ¬ (c.id.index > blob.tracts.length) := by omega
  constructor
  · intro hv
    refine ⟨?_, get?_set_self _ _ _ hlt, by simp⟩
    unfold changeTract_apply
    simp only [hb, ht]
    rw [if_neg hng, if_neg (by omega : ¬ tract.hosts.length ≠ c.newHosts.length),
      if_neg (by omega : ¬ tract.version + 1 ≠ c.newVersion)]
  · intro hv
    unfold changeTract_apply
    simp only [hb, ht]
    rw [if_neg hng, if_neg (by omega : ¬ tract.hosts.length ≠ c.newHosts.length),
      if_pos (by omega : tract.version + 1 ≠ c.newVersion)]

/-- Closed instance of `changeTract_version_rule`: scenario S1 of the spec —
bumping the single tract of a blob from version 1 to 2 succeeds, while
version 3 is a `ConflictingState`. -/
theorem changeTract_version_rule_witness :
    changeTract_apply
      { id := { blob := bid11, index := 0 }, newVersion := 2, newHosts := [7, 8, 9] }
      (putBlob db0 bid11 { blobNoTracts with tracts := [{ hosts := [4, 5, 6], version := 1 }] }) =
      some ({ err := CoreErr.noError,
              info := { tract := { blob := bid11, index := 0 }, version := 2,
                        tsids := [7, 8, 9] } },
            putBlob (putBlob db0 bid11
                { blobNoTracts with tracts := [{ hosts := [4, 5, 6], version := 1 }] })
              bid11
              { blobNoTracts with tracts := [{ hosts := [7, 8, 9], version := 2 }] }) ∧
    changeTract_apply
      { id := { blob := bid11, index := 0 }, newVersion := 3, newHosts := [7, 8, 9] }
      (putBlob db0 bid11 { blobNoTracts with tracts := [{ hosts := [4, 5, 6], version := 1 }] }) =
      some ({ err := CoreErr.errConflictingState },
            putBlob db0 bid11 { blobNoTracts with tracts := [{ hosts := [4, 5, 6], version := 1 }] }) := by
  constructor
  · have h := (changeTract_version_rule
      { id := { blob := bid11, index := 0 }, newVersion := 2, newHosts := [7, 8, 9] }
      (putBlob db0 bid11 { blobNoTracts with tracts := [{ hosts := [4, 5, 6], version := 1 }] })
      { blobNoTracts with tracts := [{ hosts := [4, 5, 6], version := 1 }] }
      { hosts := [4, 5, 6], version := 1 }
      (by decide) (by decide) (by decide)).1 (by decide)
    exact h.1.trans (by decide)
  · exact (changeTract_version_rule
      { id := { blob := bid11, index := 0 }, newVersion := 3, newHosts := [7, 8, 9] }
      (putBlob db0 bid11 { blobNoTracts with tracts := [{ hosts := [4, 5, 6], version := 1 }] })
      { blobNoTracts with tracts := [{ hosts := [4, 5, 6], version := 1 }] }
      { hosts := [4, 5, 6], version := 1 }
      (by decide) (by decide) (by decide)).2 (by decide)

/-- C5 (counterexample to the claim as stated): after a successful extend
carrying zero host vectors, a duplicate submission of the same command is
not rejected — both applications return `NoError`, so the parenthetical
"a duplicate submission after a successful extend is rejected" fails for the
degenerate empty-hosts extend. -/
theorem extendBlob_empty_duplicate_not_rejected :
    (extendBlob_apply extCmdEmpty db0).1.err = CoreErr.noError ∧
    (extendBlob_apply extCmdEmpty (extendBlob_apply extCmdEmpty db0).2).1.err =
      CoreErr.noError := by
  constructor
  · rfl
  · rfl

/-- C5 (amended): `ExtendBlobCommand.apply` answers `NoSuchBlob` for a missing
blob; `ExtendConflict` (blob unchanged) when `FirstTractKey` differs from the
tract count; `InvalidArgument` (blob unchanged) when some host vector's length
differs from the replication factor; otherwise appends one version-1 tract per
host vector in order and returns the new tract count — and a duplicate
submission after a successful extend that carried at least one host vector is
rejected with `ExtendConflict` and no further change. -/
theorem extendBlob_rules (c : ExtendBlobCommand) (db : DB) :
    (getBlob db c.id = none →
      extendBlob_apply c db = ({ err := CoreErr.errNoSuchBlob }, db)) ∧
    (∀ blob, getBlob db c.id = some blob →
      (c.firstTractKey ≠ blob.tracts.length →
        extendBlob_apply c db = ({ err := CoreErr.errExtendConflict }, db)) ∧
      (c.firstTractKey = blob.tracts.length → (∃ hs ∈ c.hosts, hs.length ≠ blob.repl) →
        extendBlob_apply c db = ({ err := CoreErr.errInvalidArgument }, db)) ∧
      (c.firstTractKey = blob.tracts.length → (∀ hs ∈ c.hosts, hs.length = blob.repl) →
        extendBlob_apply c db =
          ({ err := CoreErr.noError, newSize := blob.tracts.length + c.hosts.length },
           putBlob db c.id
             { blob with tracts :=
                 blob.tracts ++ c.hosts.map (fun hs => Tract.mk hs 1) })) ∧
      (c.firstTractKey = blob.tracts.length → (∀ hs ∈ c.hosts, hs.length = blob.repl) →
        c.hosts ≠ [] →
        extendBlob_apply c (extendBlob_apply c db).2 =
          ({ err := CoreErr.errExtendConflict }, (extendBlob_apply c db).2))) := by
  constructor
  · intro hg
    unfold extendBlob_apply
    rw [hg]
  · intro blob hg
    have hmain : c.firstTractKey = blob.tracts.length →
        (∀ hs ∈ c.hosts, hs.length = blob.repl) →
        extendBlob_apply c db =
          ({ err := CoreErr.noError, newSize := blob.tracts.length + c.hosts.length },
           putBlob db c.id
             { blob with tracts := blob.tracts ++ c.hosts.map (fun hs => Tract.mk hs 1) }) := by
      intro hk hall
      have hanyf : (c.hosts.any fun h => decide (h.length ≠ blob.repl)) = false := by
        rw [Bool.eq_false_iff]
        intro hcon
        rcases List.any_eq_true.mp hcon with ⟨hs, hmem, hdec⟩
        exact (decide_eq_true_eq.mp hdec) (hall hs hmem)
      unfold extendBlob_apply
      simp only [hg]
      rw [if_neg (by omega : ¬ c.firstTractKey ≠ blob.tracts.length)]
      simp only [hanyf, Bool.false_eq_true, if_false]
      simp [List.length_append]
    refine ⟨?_, ?_, hmain, ?_⟩
    · intro hk
      unfold extendBlob_apply
      simp only [hg]
      rw [if_pos hk]
    · intro hk hbad
      have hany : (c.hosts.any fun h => decide (h.length ≠ blob.repl)) = true := by
        rcases hbad with ⟨hs, hmem, hne⟩
        exact List.any_eq_true.mpr ⟨hs, hmem, decide_eq_true_eq.mpr hne⟩
      unfold extendBlob_apply
      simp only [hg]
      rw [if_neg (by omega : ¬ c.firstTractKey ≠ blob.tracts.length)]
      simp only [hany, if_true]
    · intro hk hall hne
      rw [hmain hk hall]
      have hdel : blob.deleted = none := getBlob_deleted_none hg
      have hg2 : getBlob (putBlob db c.id
          { blob with tracts := blob.tracts ++ c.hosts.map (fun hs => Tract.mk hs 1) }) c.id =
          some { blob with tracts := blob.tracts ++ c.hosts.map (fun hs => Tract.mk hs 1) } := by
        rw [getBlob_putBlob]
        simp [hdel]
      unfold extendBlob_apply
      simp only [hg2]
      rw [if_pos ?_]
      simp only [List.length_append, List.length_map]
      have : 0 < c.hosts.length := List.length_pos.mpr hne
      omega

/-- Closed instance of `extendBlob_rules`: scenarios S1/S2 of the spec — one
successful extend of a single tract, then the duplicate submission is
rejected with `ExtendConflict`. -/
theorem extendBlob_rules_witness :
    extendBlob_apply extCmd3 db0 =
      ({ err := CoreErr.noError, newSize := 1 },
       putBlob db0 bid11 { blobNoTracts with tracts := [{ hosts := [4, 5, 6], version := 1 }] }) ∧
    extendBlob_apply extCmd3 (extendBlob_apply extCmd3 db0).2 =
      ({ err := CoreErr.errExtendConflict }, (extendBlob_apply extCmd3 db0).2) := by
  have h := (extendBlob_rules extCmd3 db0).2 blobNoTracts (by decide)
  constructor
  · exact (h.2.2.1 (by decide) (by decide)).trans (by decide)
  · exact h.2.2.2 (by decide) (by decide) (by decide)

/-- C6: `CreateBlobCommand.apply` allocates from the lowest-id non-full
partition: the new blob's key is that partition's `next_blob_key`, the
counter is incremented by exactly 1, the blob record carries
`Mtime = Atime = InitialTime` and the expiry only when nonzero, and the
result is the new `BlobID` with `NoError`; when every partition is full the
result is `ErrGenBlobID` with the store unchanged.  The well-formedness
hypothesis says the `uint32` counters do not exceed `MaxBlobKey`. -/
theorem createBlob_lowest_nonfull (c : CreateBlobCommand) (db : DB)
    (hwf : ∀ p ∈ db.partitions, p.nextBlobKey ≤ maxBlobKey) :
    ((∃ p ∈ db.partitions, p.nextBlobKey < maxBlobKey) →
      ∃ q, q ∈ db.partitions ∧ q.nextBlobKey < maxBlobKey ∧
        (∀ x ∈ db.partitions, x.nextBlobKey < maxBlobKey → q.id ≤ x.id) ∧
        createBlob_apply c db =
          ({ id := { partition := q.id, key := q.nextBlobKey }, err := CoreErr.noError },
           putBlob (putPartition db { q with nextBlobKey := q.nextBlobKey + 1 })
             { partition := q.id, key := q.nextBlobKey }
             { repl := c.repl, hint := c.hint, mtime := c.initialTime, atime := c.initialTime,
               expires := if c.expires ≠ 0 then some c.expires else none,
               deleted := none, metadata := 0, storage := 0, tracts := [] }) ∧
        getPartition (createBlob_apply c db).2 q.id =
          some { q with nextBlobKey := q.nextBlobKey + 1 } ∧
        getBlobAll (createBlob_apply c db).2 { partition := q.id, key := q.nextBlobKey } =
          some { repl := c.repl, hint := c.hint, mtime := c.initialTime, atime := c.initialTime,
                 expires := if c.expires ≠ 0 then some c.expires else none,
                 deleted := none, metadata := 0, storage := 0, tracts := [] }) ∧
    ((∀ p ∈ db.partitions, ¬ p.nextBlobKey < maxBlobKey) →
      createBlob_apply c db =
        ({ id := { partition := 0, key := 0 }, err := CoreErr.errGenBlobID }, db)) := by
  constructor
  · rintro ⟨p0, hp0m, hp0lt⟩
    have hsome : ((getPartitions db).find? (fun p => p.nextBlobKey != maxBlobKey)).isSome := by
      refine List.find?_isSome.mpr ⟨p0, (mem_getPartitions db p0).mpr hp0m, ?_⟩
      simp [bne_iff_ne, Nat.ne_of_lt hp0lt]
    obtain ⟨q, hq⟩ := Option.isSome_iff_exists.mp hsome
    have hqmem : q ∈ db.partitions := (mem_getPartitions db q).mp (List.mem_of_find?_eq_some hq)
    have hqne : q.nextBlobKey ≠ maxBlobKey := by
      have := List.find?_some hq
      simpa [bne_iff_ne] using this
    have hqlt : q.nextBlobKey < maxBlobKey := Nat.lt_of_le_of_ne (hwf q hqmem) hqne
    have hmin : ∀ x ∈ db.partitions, x.nextBlobKey < maxBlobKey → q.id ≤ x.id := by
      intro x hx hxlt
      refine sorted_find?_min (getPartitions_sorted db) hq x
        ((mem_getPartitions db x).mpr hx) ?_
      simp [bne_iff_ne, Nat.ne_of_lt hxlt]
    have happ : createBlob_apply c db =
        ({ id := { partition := q.id, key := q.nextBlobKey }, err := CoreErr.noError },
         putBlob (putPartition db { q with nextBlobKey := q.nextBlobKey + 1 })
           { partition := q.id, key := q.nextBlobKey }
           { repl := c.repl, hint := c.hint, mtime := c.initialTime, atime := c.initialTime,
             expires := if c.expires ≠ 0 then some c.expires else none,
             deleted := none, metadata := 0, storage := 0, tracts := [] }) := by
      unfold createBlob_apply
      rw [hq]
    refine ⟨q, hqmem, hqlt, hmin, happ, ?_, ?_⟩
    · rw [happ]
      exact getPartition_putPartition db { q with nextBlobKey := q.nextBlobKey + 1 }
    · rw [happ]
      exact getBlobAll_putBlob _ _ _
  · intro hfull
    have hnone : (getPartitions db).find? (fun p => p.nextBlobKey != maxBlobKey) = none := by
      refine List.find?_eq_none.mpr ?_
      intro x hx
      have hxm : x ∈ db.partitions := (mem_getPartitions db x).mp hx
      have hxe : x.nextBlobKey = maxBlobKey :=
        Nat.le_antisymm (hwf x hxm) (Nat.le_of_not_lt (hfull x hxm))
      simp [bne_iff_ne, hxe]
    unfold createBlob_apply
    rw [hnone]

/-- Closed instance of `createBlob_lowest_nonfull`: with the only partition
full, creation fails with `ErrGenBlobID` and the store is unchanged. -/
theorem createBlob_lowest_nonfull_witness :
    createBlob_apply { repl := 3, hint := 0, initialTime := 7, expires := 0 } dbFull =
      ({ id := { partition := 0, key := 0 }, err := CoreErr.errGenBlobID }, dbFull) :=
  (createBlob_lowest_nonfull { repl := 3, hint := 0, initialTime := 7, expires := 0 } dbFull
    (by decide)).2 (by decide)

/-- C7: `AllocateRSChunkIDsCommand.apply` picks the lowest-id partition whose
counter fits `N` more keys (the test is Go `uint64` arithmetic, hence the
`% u64`), returns a range starting at `(RS-tagged id, old counter)` — or at
chunk-key 1 when the old counter was 0 — and advances the counter by `N` from
the returned start; when no partition fits, the result is `ErrGenBlobID` and
no partition changes. -/
theorem allocateRSChunkIDs_lowest_fit (n : Nat) (db : DB) :
    ((∃ p ∈ db.partitions, (p.nextRsChunkKey + n) % u64 ≤ maxRSChunkKey) →
      ∃ q, q ∈ db.partitions ∧ (q.nextRsChunkKey + n) % u64 ≤ maxRSChunkKey ∧
        (∀ x ∈ db.partitions, (x.nextRsChunkKey + n) % u64 ≤ maxRSChunkKey → q.id ≤ x.id) ∧
        allocateRSChunkIDs_apply n db =
          ({ err := CoreErr.noError,
             id := { partition := rsTagged q.id,
                     id := if q.nextRsChunkKey = 0 then 1 else q.nextRsChunkKey } },
           putPartition db { q with nextRsChunkKey :=
             ((if q.nextRsChunkKey = 0 then 1 else q.nextRsChunkKey) + n) % u64 }) ∧
        getPartition (allocateRSChunkIDs_apply n db).2 q.id =
          some { q with nextRsChunkKey :=
            ((if q.nextRsChunkKey = 0 then 1 else q.nextRsChunkKey) + n) % u64 }) ∧
    ((∀ p ∈ db.partitions, ¬ (p.nextRsChunkKey + n) % u64 ≤ maxRSChunkKey) →
      allocateRSChunkIDs_apply n db =
        ({ err := CoreErr.errGenBlobID, id := { partition := 0, id := 0 } }, db)) := by
  constructor
  · rintro ⟨p0, hp0m, hp0le⟩
    have hsome : ((getPartitions db).find?
        (fun p => decide ((p.nextRsChunkKey + n) % u64 ≤ maxRSChunkKey))).isSome := by
      refine List.find?_isSome.mpr ⟨p0, (mem_getPartitions db p0).mpr hp0m, ?_⟩
      simp [hp0le]
    obtain ⟨q, hq⟩ := Option.isSome_iff_exists.mp hsome
    have hqmem : q ∈ db.partitions := (mem_getPartitions db q).mp (List.mem_of_find?_eq_some hq)
    have hqle : (q.nextRsChunkKey + n) % u64 ≤ maxRSChunkKey := by
      have := List.find?_some hq
      simpa using this
    have hmin : ∀ x ∈ db.partitions, (x.nextRsChunkKey + n) % u64 ≤ maxRSChunkKey → q.id ≤ x.id := by
      intro x hx hxle
      refine sorted_find?_min (getPartitions_sorted db) hq x
        ((mem_getPartitions db x).mpr hx) ?_
      simp [hxle]
    have happ : allocateRSChunkIDs_apply n db =
        ({ err := CoreErr.noError,
           id := { partition := rsTagged q.id,
                   id := if q.nextRsChunkKey = 0 then 1 else q.nextRsChunkKey } },
         putPartition db { q with nextRsChunkKey :=
           ((if q.nextRsChunkKey = 0 then 1 else q.nextRsChunkKey) + n) % u64 }) := by
      unfold allocateRSChunkIDs_apply
      rw [hq]
    refine ⟨q, hqmem, hqle, hmin, happ, ?_⟩
    rw [happ]
    exact getPartition_putPartition db _
  · intro hnofit
    have hnone : (getPartitions db).find?
        (fun p => decide ((p.nextRsChunkKey + n) % u64 ≤ maxRSChunkKey)) = none := by
      refine List.find?_eq_none.mpr ?_
      intro x hx
      simp [hnofit x ((mem_getPartitions db x).mp hx)]
    unfold allocateRSChunkIDs_apply
    rw [hnone]

/-- Closed instance of `allocateRSChunkIDs_lowest_fit`: allocating 10 chunk
ids from `db0` starts at chunk-key 1 of the RS-tagged partition 1 (the
counter was 0) and leaves the counter at 11. -/
theorem allocateRSChunkIDs_lowest_fit_witness :
    allocateRSChunkIDs_apply 10 db0 =
      ({ err := CoreErr.noError, id := { partition := rsTagged 1, id := 1 } },
       putPartition db0 { id := 1, nextBlobKey := 2, nextRsChunkKey := 11 }) := by
  obtain ⟨q, hqm, -, -, happ, -⟩ :=
    (allocateRSChunkIDs_lowest_fit 10 db0).1
      ⟨{ id := 1, nextBlobKey := 2, nextRsChunkKey := 0 }, by decide, by decide⟩
  have hq : q = { id := 1, nextBlobKey := 2, nextRsChunkKey := 0 } := by
    have : q ∈ db0.partitions := hqm
    simpa [db0] using this
  rw [hq] at happ
  exact happ.trans (by decide)

/-- A handler with the read-only flag cleared; used to state that checksum
commands do not consult the flag. -/
def clearRO (h : StateHandler) : StateHandler :=
  { h with db := { h.db with readOnly := false } }

/-- A non-replay `Apply` of a command that is neither a checksum command nor
`SetReadOnlyMode` is the write path `applyMut`. -/
theorem Apply_eq_applyMut (h : StateHandler) (ent : Entry)
    (hnle : ¬ ent.index ≤ h.db.index)
    (hk : ent.cmd.isChecksumKind = false)
    (hnro : ∀ b, ent.cmd ≠ Cmd.setReadOnlyMode b) :
    Apply h ent = applyMut h ent.index ent.cmd := by
  unfold Apply
  rw [if_neg hnle]
  cases hc : ent.cmd with
  | checksum c => rw [hc] at hk; simp [Cmd.isChecksumKind] at hk
  | verifyChecksum c => rw [hc] at hk; simp [Cmd.isChecksumKind] at hk
  | setReadOnlyMode b => exact absurd hc (hnro b)
  | setRegistration id => rfl
  | addPartition id => rfl
  | syncPartitions ids => rfl
  | createBlob c => rfl
  | deleteBlob id w => rfl
  | finishDelete ids => rfl
  | undeleteBlob id => rfl
  | setMetadata id md => rfl
  | extendBlob c => rfl
  | changeTract c => rfl
  | updateTimes us => rfl
  | allocateRSChunkIDs n => rfl
  | commitRSChunk id st hs data => rfl
  | updateRSHosts id hs => rfl
  | updateStorageClass id st => rfl
  | createTSIDCache => rfl

/-- The checksum branch of a non-replay `Apply` (fsm.go 40-43, 144-149). -/
theorem Apply_checksum_eq (h : StateHandler) (ent : Entry) (c : ChecksumCommand)
    (hnle : ¬ ent.index ≤ h.db.index) (hc : ent.cmd = Cmd.checksum c) :
    Apply h ent = some
      (.checksumRes { next := (checksumOf h.db c.start c.n).2,
                      checksum := (checksumOf h.db c.start c.n).1, index := ent.index },
       { h with checksum := (checksumOf h.db c.start c.n).1,
                checksumIndex := ent.index }) := by
  unfold Apply
  rw [if_neg hnle, hc]

/-- The verify branch of a non-replay `Apply` (fsm.go 44-48, 151-161). -/
theorem Apply_verify_eq (h : StateHandler) (ent : Entry) (c : VerifyChecksumCommand)
    (hnle : ¬ ent.index ≤ h.db.index) (hc : ent.cmd = Cmd.verifyChecksum c) :
    Apply h ent =
      (if h.checksumIndex ≠ c.index then some (ApplyResult.retNil, h)
       else if h.checksum ≠ c.checksum then none
       else some (ApplyResult.retNil, h)) := by
  unfold Apply
  rw [if_neg hnle, hc]

/-- The `SetReadOnlyMode` branch of a non-replay `Apply` (fsm.go 60-64). -/
theorem Apply_setRO_eq (h : StateHandler) (ent : Entry) (b : Bool)
    (hnle : ¬ ent.index ≤ h.db.index) (hc : ent.cmd = Cmd.setReadOnlyMode b) :
    Apply h ent = some (.err CoreErr.noError,
      { h with db := commit { h.db with readOnly := b } ent.index }) := by
  unfold Apply
  rw [if_neg hnle, hc]

/-- Case analysis on a non-replay `Apply`: a checksum command, a verify
command, the `SetReadOnlyMode` fast path, or the mutating write path. -/
theorem Apply_shape (h : StateHandler) (ent : Entry)
    (hnle : ¬ ent.index ≤ h.db.index) :
    (∃ c, ent.cmd = Cmd.checksum c) ∨ (∃ c, ent.cmd = Cmd.verifyChecksum c) ∨
    (∃ b, ent.cmd = Cmd.setReadOnlyMode b) ∨
    (ent.cmd.isChecksumKind = false ∧ (∀ b, ent.cmd ≠ Cmd.setReadOnlyMode b) ∧
      Apply h ent = applyMut h ent.index ent.cmd) := by
  cases hc : ent.cmd with
  | checksum c => exact Or.inl ⟨c, rfl⟩
  | verifyChecksum c => exact Or.inr (Or.inl ⟨c, rfl⟩)
  | setReadOnlyMode b => exact Or.inr (Or.inr (Or.inl ⟨b, rfl⟩))
  | setRegistration id =>
    exact Or.inr (Or.inr (Or.inr ⟨by simp [Cmd.isChecksumKind], fun b hb => Cmd.noConfusion hb,
      hc ▸ Apply_eq_applyMut h ent hnle (by rw [hc]; rfl)
        (fun b hb => by rw [hc] at hb; exact Cmd.noConfusion hb)⟩))
  | addPartition id =>
    exact Or.inr (Or.inr (Or.inr ⟨by simp [Cmd.isChecksumKind], fun b hb => Cmd.noConfusion hb,
      hc ▸ Apply_eq_applyMut h ent hnle (by rw [hc]; rfl)
        (fun b hb => by rw [hc] at hb; exact Cmd.noConfusion hb)⟩))
  | syncPartitions ids =>
    exact Or.inr (Or.inr (Or.inr ⟨by simp [Cmd.isChecksumKind], fun b hb => Cmd.noConfusion hb,
      hc ▸ Apply_eq_applyMut h ent hnle (by rw [hc]; rfl)
        (fun b hb => by rw [hc] at hb; exact Cmd.noConfusion hb)⟩))
  | createBlob c =>
    exact Or.inr (Or.inr (Or.inr ⟨by simp [Cmd.isChecksumKind], fun b hb => Cmd.noConfusion hb,
      hc ▸ Apply_eq_applyMut h ent hnle (by rw [hc]; rfl)
        (fun b hb => by rw [hc] at hb; exact Cmd.noConfusion hb)⟩))
  | deleteBlob id w =>
    exact Or.inr (Or.inr (Or.inr ⟨by simp [Cmd.isChecksumKind], fun b hb => Cmd.noConfusion hb,
      hc ▸ Apply_eq_applyMut h ent hnle (by rw [hc]; rfl)
        (fun b hb => by rw [hc] at hb; exact Cmd.noConfusion hb)⟩))
  | finishDelete ids =>
    exact Or.inr (Or.inr (Or.inr ⟨by simp [Cmd.isChecksumKind], fun b hb => Cmd.noConfusion hb,
      hc ▸ Apply_eq_applyMut h ent hnle (by rw [hc]; rfl)
        (fun b hb => by rw [hc] at hb; exact Cmd.noConfusion hb)⟩))
  | undeleteBlob id =>
    exact Or.inr (Or.inr (Or.inr ⟨by simp [Cmd.isChecksumKind], fun b hb => Cmd.noConfusion hb,
      hc ▸ Apply_eq_applyMut h ent hnle (by rw [hc]; rfl)
        (fun b hb => by rw [hc] at hb; exact Cmd.noConfusion hb)⟩))
  | setMetadata id md =>
    exact Or.inr (Or.inr (Or.inr ⟨by simp [Cmd.isChecksumKind], fun b hb => Cmd.noConfusion hb,
      hc ▸ Apply_eq_applyMut h ent hnle (by rw [hc]; rfl)
        (fun b hb => by rw [hc] at hb; exact Cmd.noConfusion hb)⟩))
  | extendBlob c =>
    exact Or.inr (Or.inr (Or.inr ⟨by simp [Cmd.isChecksumKind], fun b hb => Cmd.noConfusion hb,
      hc ▸ Apply_eq_applyMut h ent hnle (by rw [hc]; rfl)
        (fun b hb => by rw [hc] at hb; exact Cmd.noConfusion hb)⟩))
  | changeTract c =>
    exact Or.inr (Or.inr (Or.inr ⟨by simp [Cmd.isChecksumKind], fun b hb => Cmd.noConfusion hb,
      hc ▸ Apply_eq_applyMut h ent hnle (by rw [hc]; rfl)
        (fun b hb => by rw [hc] at hb; exact Cmd.noConfusion hb)⟩))
  | updateTimes us =>
    exact Or.inr (Or.inr (Or.inr ⟨by simp [Cmd.isChecksumKind], fun b hb => Cmd.noConfusion hb,
      hc ▸ Apply_eq_applyMut h ent hnle (by rw [hc]; rfl)
        (fun b hb => by rw [hc] at hb; exact Cmd.noConfusion hb)⟩))
  | allocateRSChunkIDs n =>
    exact Or.inr (Or.inr (Or.inr ⟨by simp [Cmd.isChecksumKind], fun b hb => Cmd.noConfusion hb,
      hc ▸ Apply_eq_applyMut h ent hnle (by rw [hc]; rfl)
        (fun b hb => by rw [hc] at hb; exact Cmd.noConfusion hb)⟩))
  | commitRSChunk id st hs data =>
    exact Or.inr (Or.inr (Or.inr ⟨by simp [Cmd.isChecksumKind], fun b hb => Cmd.noConfusion hb,
      hc ▸ Apply_eq_applyMut h ent hnle (by rw [hc]; rfl)
        (fun b hb => by rw [hc] at hb; exact Cmd.noConfusion hb)⟩))
  | updateRSHosts id hs =>
    exact Or.inr (Or.inr (Or.inr ⟨by simp [Cmd.isChecksumKind], fun b hb => Cmd.noConfusion hb,
      hc ▸ Apply_eq_applyMut h ent hnle (by rw [hc]; rfl)
        (fun b hb => by rw [hc] at hb; exact Cmd.noConfusion hb)⟩))
  | updateStorageClass id st =>
    exact Or.inr (Or.inr (Or.inr ⟨by simp [Cmd.isChecksumKind], fun b hb => Cmd.noConfusion hb,
      hc ▸ Apply_eq_applyMut h ent hnle (by rw [hc]; rfl)
        (fun b hb => by rw [hc] at hb; exact Cmd.noConfusion hb)⟩))
  | createTSIDCache =>
    exact Or.inr (Or.inr (Or.inr ⟨by simp [Cmd.isChecksumKind], fun b hb => Cmd.noConfusion hb,
      hc ▸ Apply_eq_applyMut h ent hnle (by rw [hc]; rfl)
        (fun b hb => by rw [hc] at hb; exact Cmd.noConfusion hb)⟩))

/-- A non-fatal `verifyChecksum` application returns Go `nil` and leaves the
handler untouched. -/
theorem Apply_verify_cases {h : StateHandler} {ent : Entry} {c : VerifyChecksumCommand}
    {r : ApplyResult} {h' : StateHandler}
    (hnle : ¬ ent.index ≤ h.db.index) (hc : ent.cmd = Cmd.verifyChecksum c)
    (happ : Apply h ent = some (r, h')) : r = ApplyResult.retNil ∧ h' = h := by
  rw [Apply_verify_eq h ent c hnle hc] at happ
  by_cases h1 : h.checksumIndex ≠ c.index
  · rw [if_pos h1] at happ
    simp only [Option.some.injEq, Prod.mk.injEq] at happ
    exact ⟨happ.1.symm, happ.2.symm⟩
  · rw [if_neg h1] at happ
    by_cases h2 : h.checksum ≠ c.checksum
    · rw [if_pos h2] at happ; cases happ
    · rw [if_neg h2] at happ
      simp only [Option.some.injEq, Prod.mk.injEq] at happ
      exact ⟨happ.1.symm, happ.2.symm⟩

/-- C2 (counterexample to the claim as stated): a `Checksum` entry runs in a
read-only transaction (fsm.go 38-43), so the applied index is not advanced —
here `Apply` of a checksum entry at index 5 over a store at index 0 leaves
`GetIndex()` at 0, not 5. -/
theorem apply_checksum_index_not_advanced :
    (Apply h0 { index := 5, cmd := Cmd.checksum { start := 0, n := 10 } }).map
      (fun p => p.2.db.index) = some 0 ∧ (0 : Nat) ≠ 5 := by
  exact ⟨rfl, by decide⟩

/-- C2 (amended): for an entry with index above the stored applied index, a
non-halting `Apply` of any command other than `Checksum`/`VerifyChecksum`
leaves the applied index at exactly the entry's index — including read-only
rejections and handler errors, which commit through the same deferred write
transaction — while `Checksum` and `VerifyChecksum` entries leave the whole
store (applied index included) unchanged. -/
theorem apply_advances_index (h : StateHandler) (ent : Entry)
    (hidx : h.db.index < ent.index) :
    (ent.cmd.isChecksumKind = false →
      ∀ r h', Apply h ent = some (r, h') → h'.db.index = ent.index) ∧
    (ent.cmd.isChecksumKind = true →
      ∀ r h', Apply h ent = some (r, h') → h'.db = h.db) := by
  have hnle : ¬ ent.index ≤ h.db.index := Nat.not_le.mpr hidx
  constructor
  · intro hk r h' happ
    rcases Apply_shape h ent hnle with ⟨c, hc⟩ | ⟨c, hc⟩ | ⟨b, hc⟩ | ⟨-, -, heq⟩
    · rw [hc] at hk; simp [Cmd.isChecksumKind] at hk
    · rw [hc] at hk; simp [Cmd.isChecksumKind] at hk
    · rw [Apply_setRO_eq h ent b hnle hc] at happ
      simp only [Option.some.injEq, Prod.mk.injEq] at happ
      rw [← happ.2]
      rfl
    · rw [heq] at happ
      exact applyMut_some_index happ
  · intro hk r h' happ
    rcases Apply_shape h ent hnle with ⟨c, hc⟩ | ⟨c, hc⟩ | ⟨b, hc⟩ | ⟨hk2, -, -⟩
    · rw [Apply_checksum_eq h ent c hnle hc] at happ
      simp only [Option.some.injEq, Prod.mk.injEq] at happ
      rw [← happ.2]
    · rw [(Apply_verify_cases hnle hc happ).2]
    · rw [hc] at hk; simp [Cmd.isChecksumKind] at hk
    · rw [hk] at hk2; cases hk2

/-- Closed instance of `apply_advances_index`: applying a `CreateBlob` entry
at index 5 over `h0` (stored index 0) leaves the applied index at exactly 5. -/
theorem apply_advances_index_witness :
    (Apply h0 { index := 5, cmd := Cmd.createBlob { repl := 3, hint := 0, initialTime := 7, expires := 0 } }).map
      (fun p => p.2.db.index) = some 5 := by
  have h := (apply_advances_index h0
    { index := 5, cmd := Cmd.createBlob { repl := 3, hint := 0, initialTime := 7, expires := 0 } }
    (by decide)).1 rfl
  cases happ : Apply h0
      { index := 5, cmd := Cmd.createBlob { repl := 3, hint := 0, initialTime := 7, expires := 0 } } with
  | none =>
    have hne : Apply h0
        { index := 5, cmd := Cmd.createBlob { repl := 3, hint := 0, initialTime := 7, expires := 0 } } ≠
        none := by decide
    exact absurd happ hne
  | some p =>
    simp only [Option.map_some']
    rw [h p.1 p.2 happ]

/-- C3: an entry at or below the stored applied index is crash-recovery
replay: `Apply` returns Go `nil` and leaves the handler untouched
(fsm.go 26-33); consequently re-applying any entry whose first application
returned leaves the state exactly as after the first application. -/
theorem apply_replay_noop (h : StateHandler) (ent : Entry) :
    (ent.index ≤ h.db.index → Apply h ent = some (ApplyResult.retNil, h)) ∧
    (∀ r h', Apply h ent = some (r, h') →
      ∃ r2, Apply h' ent = some (r2, h')) := by
  have hrep : ∀ g : StateHandler, ent.index ≤ g.db.index →
      Apply g ent = some (ApplyResult.retNil, g) := by
    intro g hle
    unfold Apply
    rw [if_pos hle]
  constructor
  · exact hrep h
  · intro r h' happ
    by_cases hle : ent.index ≤ h.db.index
    · rw [hrep h hle] at happ
      simp only [Option.some.injEq, Prod.mk.injEq] at happ
      rw [← happ.2]
      exact ⟨ApplyResult.retNil, hrep h hle⟩
    · rcases Apply_shape h ent hle with ⟨c, hc⟩ | ⟨c, hc⟩ | ⟨b, hc⟩ | ⟨-, -, heq⟩
      · rw [Apply_checksum_eq h ent c hle hc] at happ
        simp only [Option.some.injEq, Prod.mk.injEq] at happ
        obtain ⟨-, h2⟩ := happ
        subst h2
        exact ⟨_, Apply_checksum_eq _ ent c hle hc⟩
      · obtain ⟨-, h2⟩ := Apply_verify_cases hle hc happ
        subst h2
        exact ⟨r, happ⟩
      · rw [Apply_setRO_eq h ent b hle hc] at happ
        simp only [Option.some.injEq, Prod.mk.injEq] at happ
        obtain ⟨-, h2⟩ := happ
        subst h2
        exact ⟨ApplyResult.retNil, hrep _ (Nat.le_refl _)⟩
      · rw [heq] at happ
        have hidx' := applyMut_some_index happ
        exact ⟨ApplyResult.retNil, hrep h' (Nat.le_of_eq hidx'.symm)⟩

/-- Closed instance of `apply_replay_noop`: replaying an entry at index 0
over `h0` no-ops, and after a first application of a `CreateBlob` entry at
index 5 the second application of the same entry returns with the state
unchanged. -/
theorem apply_replay_noop_witness :
    Apply h0 { index := 0, cmd := Cmd.createBlob { repl := 3, hint := 0, initialTime := 7, expires := 0 } } =
      some (ApplyResult.retNil, h0) ∧
    (Apply ((Apply h0 { index := 5, cmd := Cmd.createBlob { repl := 3, hint := 0, initialTime := 7, expires := 0 } }).getD
        (ApplyResult.retNil, h0)).2
      { index := 5, cmd := Cmd.createBlob { repl := 3, hint := 0, initialTime := 7, expires := 0 } }).isSome = true := by
  constructor
  · exact (apply_replay_noop h0
      { index := 0, cmd := Cmd.createBlob { repl := 3, hint := 0, initialTime := 7, expires := 0 } }).1
      (by decide)
  · cases happ : Apply h0
        { index := 5, cmd := Cmd.createBlob { repl := 3, hint := 0, initialTime := 7, expires := 0 } } with
    | none =>
      have hne : Apply h0
          { index := 5, cmd := Cmd.createBlob { repl := 3, hint := 0, initialTime := 7, expires := 0 } } ≠
          none := by decide
      exact absurd happ hne
    | some p =>
      obtain ⟨r2, h2⟩ := (apply_replay_noop h0
        { index := 5, cmd := Cmd.createBlob { repl := 3, hint := 0, initialTime := 7, expires := 0 } }).2
        p.1 p.2 happ
      simp only [Option.getD_some]
      rw [h2]
      rfl

/-- C8: with read-only mode set and a fresh entry index, `SetReadOnlyMode` is
still applied (fsm.go 60-64); every other mutating command is rejected with
`ReadOnlyMode` while the transaction still commits, changing nothing but the
applied index (fsm.go 66-69); and the two checksum commands behave
identically whether or not the flag is set. -/
theorem apply_readonly_gate (h : StateHandler) (ent : Entry)
    (hro : h.db.readOnly = true) (hidx : h.db.index < ent.index) :
    (∀ b, ent.cmd = Cmd.setReadOnlyMode b →
      Apply h ent = some (.err CoreErr.noError,
        { h with db := commit { h.db with readOnly := b } ent.index })) ∧
    (ent.cmd.isChecksumKind = false → (∀ b, ent.cmd ≠ Cmd.setReadOnlyMode b) →
      Apply h ent = some (.err CoreErr.errReadOnlyMode,
        { h with db := commit h.db ent.index })) ∧
    (ent.cmd.isChecksumKind = true →
      (Apply h ent).map (fun p => (p.1, clearRO p.2)) =
        (Apply (clearRO h) ent).map (fun p => (p.1, clearRO p.2))) := by
  have hnle : ¬ ent.index ≤ h.db.index := Nat.not_le.mpr hidx
  have hnle' : ¬ ent.index ≤ (clearRO h).db.index := hnle
  refine ⟨?_, ?_, ?_⟩
  · intro b hb
    exact Apply_setRO_eq h ent b hnle hb
  · intro hk hnro
    rw [Apply_eq_applyMut h ent hnle hk hnro]
    unfold applyMut
    rw [if_pos hro]
  · intro hk
    rcases Apply_shape h ent hnle with ⟨c, hc⟩ | ⟨c, hc⟩ | ⟨b, hc⟩ | ⟨hk2, -, -⟩
    · rw [Apply_checksum_eq h ent c hnle hc,
        Apply_checksum_eq (clearRO h) ent c hnle' hc]
      rfl
    · rw [Apply_verify_eq h ent c hnle hc,
        Apply_verify_eq (clearRO h) ent c hnle' hc]
      by_cases h1 : h.checksumIndex ≠ c.index
      · rw [if_pos h1, if_pos (show (clearRO h).checksumIndex ≠ c.index from h1)]
        rfl
      · rw [if_neg h1, if_neg (show ¬ (clearRO h).checksumIndex ≠ c.index from h1)]
        by_cases h2 : h.checksum ≠ c.checksum
        · rw [if_pos h2, if_pos (show (clearRO h).checksum ≠ c.checksum from h2)]
        · rw [if_neg h2, if_neg (show ¬ (clearRO h).checksum ≠ c.checksum from h2)]
          rfl
    · rw [hc] at hk; simp [Cmd.isChecksumKind] at hk
    · rw [hk] at hk2; cases hk2

/-- Closed instance of `apply_readonly_gate` over the read-only handler
`hRO`: clearing the flag is applied, a `CreateBlob` is rejected with
`ReadOnlyMode` while the index still advances, and a `Checksum` entry behaves
as without the flag. -/
theorem apply_readonly_gate_witness :
    Apply hRO { index := 3, cmd := Cmd.setReadOnlyMode false } =
      some (.err CoreErr.noError,
        { hRO with db := commit { hRO.db with readOnly := false } 3 }) ∧
    Apply hRO { index := 3, cmd := Cmd.createBlob { repl := 3, hint := 0, initialTime := 7, expires := 0 } } =
      some (.err CoreErr.errReadOnlyMode, { hRO with db := commit hRO.db 3 }) ∧
    (Apply hRO { index := 3, cmd := Cmd.checksum { start := 0, n := 10 } }).map
        (fun p => (p.1, clearRO p.2)) =
      (Apply (clearRO hRO) { index := 3, cmd := Cmd.checksum { start := 0, n := 10 } }).map
        (fun p => (p.1, clearRO p.2)) := by
  have h := apply_readonly_gate hRO { index := 3, cmd := Cmd.setReadOnlyMode false }
    (by decide) (by decide)
  have h2 := apply_readonly_gate hRO
    { index := 3, cmd := Cmd.createBlob { repl := 3, hint := 0, initialTime := 7, expires := 0 } }
    (by decide) (by decide)
  have h3 := apply_readonly_gate hRO { index := 3, cmd := Cmd.checksum { start := 0, n := 10 } }
    (by decide) (by decide)
  exact ⟨h.1 false rfl, h2.2.1 rfl (fun b hb => Cmd.noConfusion hb), h3.2.2 rfl⟩

/-- C9: a non-replay `VerifyChecksum` entry halts the process (the
`log.Fatalf` branch, modelled `none`) exactly when the cached checksum index
equals the command's expected index and the cached checksum differs from the
expected one; in every non-fatal case (in particular an index mismatch) it
returns Go `nil` and leaves the store and the cached pair untouched. -/
theorem verifyChecksum_fatal_iff (h : StateHandler) (ent : Entry)
    (c : VerifyChecksumCommand)
    (hc : ent.cmd = Cmd.verifyChecksum c) (hidx : h.db.index < ent.index) :
    (Apply h ent = none ↔ h.checksumIndex = c.index ∧ h.checksum ≠ c.checksum) ∧
    (∀ r h', Apply h ent = some (r, h') → r = ApplyResult.retNil ∧ h' = h) := by
  have hnle : ¬ ent.index ≤ h.db.index := Nat.not_le.mpr hidx
  constructor
  · rw [Apply_verify_eq h ent c hnle hc]
    by_cases h1 : h.checksumIndex ≠ c.index
    · rw [if_pos h1]
      simp [h1]
    · rw [if_neg h1]
      rw [not_ne_iff] at h1
      by_cases h2 : h.checksum ≠ c.checksum
      · rw [if_pos h2]
        simp [h1, h2]
      · rw [if_neg h2]
        simp [h2]
  · intro r h' happ
    exact Apply_verify_cases hnle hc happ

/-- Closed instance of `verifyChecksum_fatal_iff`: over `h0` (cached pair
`(0, 0)`) a verify expecting checksum 7 at the matching index 0 is fatal,
while a verify at a non-matching index no-ops. -/
theorem verifyChecksum_fatal_iff_witness :
    Apply h0 { index := 1, cmd := Cmd.verifyChecksum { index := 0, checksum := 7 } } = none ∧
    Apply h0 { index := 1, cmd := Cmd.verifyChecksum { index := 9, checksum := 7 } } =
      some (ApplyResult.retNil, h0) := by
  constructor
  · exact (verifyChecksum_fatal_iff h0
      { index := 1, cmd := Cmd.verifyChecksum { index := 0, checksum := 7 } }
      { index := 0, checksum := 7 } rfl (by decide)).1.mpr ⟨rfl, by decide⟩
  · have h := (verifyChecksum_fatal_iff h0
      { index := 1, cmd := Cmd.verifyChecksum { index := 9, checksum := 7 } }
      { index := 9, checksum := 7 } rfl (by decide)).1
    cases happ : Apply h0 { index := 1, cmd := Cmd.verifyChecksum { index := 9, checksum := 7 } } with
    | none =>
      have := h.mp happ
      exact absurd this.1 (by decide)
    | some p =>
      obtain ⟨r, h'⟩ := p
      obtain ⟨h1, h2⟩ := (verifyChecksum_fatal_iff h0
        { index := 1, cmd := Cmd.verifyChecksum { index := 9, checksum := 7 } }
        { index := 9, checksum := 7 } rfl (by decide)).2 r h' happ
      rw [h1, h2]

end Blb
